import Mathlib

/-!
Verification of the core of `Avg_Timezone_optimized.py` (Sunset-Map):
the time codec (`time_to_seconds` / `seconds_to_time`), the statistics
engine (`calculate_statistics`), the geographic batcher
(`GeographicBatcher._get_grid_coordinates` / `prepare_batches`), the
rate limiter (`RateLimiter.acquire`) and the cache-aware fetch
orchestration (`fetch_grid_sunset`).

Modelling conventions:
* Machine floats are modelled as exact rationals (`ℚ`); clock time is a
  rational number of seconds.
* Python functions that can raise are modelled as `Option`-valued
  functions (`none` = the call raises).
* `datetime.strptime` with the two fixed formats used by the source is
  modelled character-by-character after CPython's `_strptime` regexes;
  `datetime.fromisoformat` is modelled after the pre-3.11 grammar
  `YYYY-MM-DD[<sep>HH[:MM[:SS[.fff[fff]]]][±HH:MM[:SS]]]`.
* Every place the source truncates a statistic with `int(...)` is
  modelled as the exact integer value of the composition (for
  non-negative integer data, `int(mean(xs))` is exactly
  `xs.sum / xs.length` in natural-number division, and similarly for
  the median); this keeps the definitions kernel-executable.
-/

/-! ## Characters and two-digit decimal fields -/

/-- Is `c` an ASCII decimal digit?  (Models the `\d` character class of
the `_strptime` regexes, restricted to ASCII.) -/
def isDigitCh (c : Char) : Bool := 48 ≤ c.toNat && c.toNat ≤ 57

/-- Numeric value of an ASCII digit character. -/
def digitVal (c : Char) : ℕ := c.toNat - 48

/-- The ASCII digit character for `d ∈ [0, 9]`. -/
def digitChar (d : ℕ) : Char := Char.ofNat (48 + d)

/-- Models Python's `f"{n:02d}"` for a non-negative integer: two digits,
zero padded (all call sites in the source have `n < 100`). -/
def pad2 (n : ℕ) : List Char :=
  if n < 100 then [digitChar (n / 10), digitChar (n % 10)] else (toString n).data

/-- `seconds_to_time` (source lines 211-216): seconds since midnight to
`"HH:MM:SS"`, with `hours = (seconds // 3600) % 24`,
`minutes = (seconds % 3600) // 60`, `secs = seconds % 60`.
All call sites pass non-negative integers, so the domain is `ℕ` and
Python's `//`/`%` coincide with natural division/modulus. -/
def seconds_to_time (seconds : ℕ) : String :=
  String.mk (pad2 (seconds / 3600 % 24) ++ ':' :: pad2 (seconds % 3600 / 60)
    ++ ':' :: pad2 (seconds % 60))

/-! ## `datetime.strptime` for `"%I:%M:%S %p"` and `"%H:%M:%S"`

Each numeric directive compiles to an ordered regex alternation
(`%H ↦ 2[0-3]|[0-1]\d|\d`, `%I ↦ 1[0-2]|0[1-9]|[1-9]`,
`%M ↦ [0-5]\d|\d`, `%S ↦ 6[0-1]|[0-5]\d|\d`).  `matchField` takes the
two-digit alternative whenever it applies and the one-digit alternative
otherwise.  This committed choice is equivalent to the regex's
backtracking for these formats: in both formats every field is followed
by `':'`, whitespace, or end of input, so when a two-digit match exists
the one-digit alternative always fails on the following digit. -/

/-- Match one numeric directive.  `valid2 d1 d2` says whether the
two-digit alternative accepts the digits `d1 d2`; `valid1 d` likewise
for the one-digit alternative. -/
def matchField (valid2 : ℕ → ℕ → Bool) (valid1 : ℕ → Bool) :
    List Char → Option (ℕ × List Char)
  | c1 :: c2 :: rest =>
    if isDigitCh c1 then
      if isDigitCh c2 && valid2 (digitVal c1) (digitVal c2) then
        some (10 * digitVal c1 + digitVal c2, rest)
      else if valid1 (digitVal c1) then some (digitVal c1, c2 :: rest)
      else none
    else none
  | [c1] => if isDigitCh c1 && valid1 (digitVal c1) then some (digitVal c1, []) else none
  | [] => none

/-- Two-digit alternative of `%H`: `2[0-3]|[0-1]\d`. -/
def validH2 (d1 d2 : ℕ) : Bool := (d1 == 2 && d2 ≤ 3) || d1 ≤ 1

/-- One-digit alternative of `%H`: `\d`. -/
def validH1 (_ : ℕ) : Bool := true

/-- Two-digit alternative of `%I`: `1[0-2]|0[1-9]`. -/
def validI2 (d1 d2 : ℕ) : Bool := (d1 == 1 && d2 ≤ 2) || (d1 == 0 && 1 ≤ d2)

/-- One-digit alternative of `%I`: `[1-9]`. -/
def validI1 (d : ℕ) : Bool := 1 ≤ d

/-- Two-digit alternative of `%M`: `[0-5]\d`. -/
def validM2 (d1 _ : ℕ) : Bool := d1 ≤ 5

/-- One-digit alternative of `%M`: `\d`. -/
def validM1 (_ : ℕ) : Bool := true

/-- Two-digit alternative of `%S`: `6[0-1]|[0-5]\d` (strptime accepts
leap seconds 60 and 61; the `datetime` constructor then rejects them). -/
def validS2 (d1 d2 : ℕ) : Bool := (d1 == 6 && d2 ≤ 1) || d1 ≤ 5

/-- One-digit alternative of `%S`: `\d`. -/
def validS1 (_ : ℕ) : Bool := true

/-- Match a literal `':'` of the format. -/
def expectColon : List Char → Option (List Char)
  | ':' :: rest => some rest
  | _ => none

/-- Is `c` whitespace for the format's `\s+` (ASCII part of Python's
`\s`)? -/
def isSpaceCh (c : Char) : Bool :=
  c == ' ' || c == '\t' || c == '\n' || c == '\r' || c == '\x0b' || c == '\x0c'

/-- The common `<field>:<field>:<field>` part of both formats; returns
the three values and the unconsumed input. -/
def parseHMS (v2 : ℕ → ℕ → Bool) (v1 : ℕ → Bool) (l : List Char) :
    Option (ℕ × ℕ × ℕ × List Char) :=
  match matchField v2 v1 l with
  | none => none
  | some (h, r1) =>
    match expectColon r1 with
    | none => none
    | some r2 =>
      match matchField validM2 validM1 r2 with
      | none => none
      | some (m, r3) =>
        match expectColon r3 with
        | none => none
        | some r4 =>
          match matchField validS2 validS1 r4 with
          | none => none
          | some (s, r5) => some (h, m, s, r5)

/-- `%p` after the format's literal blank: `\s+` then `AM|PM`
(case-insensitive, `re.IGNORECASE`), then end of input.  Returns
`true` for PM. -/
def parseMeridiemTail : List Char → Option Bool
  | c :: rest =>
    if isSpaceCh c then
      match rest.dropWhile isSpaceCh with
      | [a, m] =>
        if (a == 'A' || a == 'a') && (m == 'M' || m == 'm') then some false
        else if (a == 'P' || a == 'p') && (m == 'M' || m == 'm') then some true
        else none
      | _ => none
    else none
  | [] => none

/-- `datetime.strptime(time_str, "%I:%M:%S %p")` followed by
`hour*3600 + minute*60 + second` (source lines 194-195).  `%p` adjusts
the hour exactly as `_strptime` does; the `datetime` constructor
rejects seconds ≥ 60 with the same `ValueError` as a regex mismatch. -/
def parse12h (l : List Char) : Option ℕ :=
  match parseHMS validI2 validI1 l with
  | none => none
  | some (h, m, s, r) =>
    match parseMeridiemTail r with
    | none => none
    | some pm =>
      let hour := if pm then (if h == 12 then 12 else h + 12)
                  else (if h == 12 then 0 else h)
      if s ≤ 59 then some (hour * 3600 + m * 60 + s) else none

/-- `datetime.strptime(time_str, "%H:%M:%S")` followed by
`hour*3600 + minute*60 + second` (source lines 199-200).  The whole
string must be consumed ("unconverted data remains" is a
`ValueError`). -/
def parse24h (l : List Char) : Option ℕ :=
  match parseHMS validH2 validH1 l with
  | none => none
  | some (h, m, s, r) => if r.isEmpty && s ≤ 59 then some (h * 3600 + m * 60 + s) else none

/-! ## `datetime.fromisoformat` (pre-3.11 grammar) -/

/-- Exactly two ASCII digits. -/
def parse2 : List Char → Option (ℕ × List Char)
  | c1 :: c2 :: rest =>
    if isDigitCh c1 && isDigitCh c2 then some (10 * digitVal c1 + digitVal c2, rest)
    else none
  | _ => none

/-- Exactly four ASCII digits. -/
def parse4 : List Char → Option (ℕ × List Char)
  | c1 :: c2 :: c3 :: c4 :: rest =>
    if isDigitCh c1 && isDigitCh c2 && isDigitCh c3 && isDigitCh c4 then
      some (1000 * digitVal c1 + 100 * digitVal c2 + 10 * digitVal c3 + digitVal c4, rest)
    else none
  | _ => none

/-- Match a literal character. -/
def expectChar (c : Char) : List Char → Option (List Char)
  | c1 :: rest => if c1 == c then some rest else none
  | [] => none

/-- Days in a month of the proleptic Gregorian calendar (as validated by
the `datetime` constructor). -/
def daysInMonth (y m : ℕ) : ℕ :=
  if m == 2 then (if y % 4 == 0 && (y % 100 != 0 || y % 400 == 0) then 29 else 28)
  else if m == 4 || m == 6 || m == 9 || m == 11 then 30
  else 31

/-- Split the time substring at the first `'+'` or `'-'`, which starts
the UTC-offset part if present (as `_parse_isoformat_time` does). -/
def breakAtSign : List Char → List Char × List Char
  | [] => ([], [])
  | c :: rest =>
    if c == '+' || c == '-' then ([], c :: rest)
    else
      let (a, b) := breakAtSign rest
      (c :: a, b)

/-- Optional fractional part after seconds: `'.'` followed by exactly 3
or 6 digits (the fraction does not contribute to `.time()`'s second). -/
def parseFracOpt : List Char → Option (List Char)
  | '.' :: rest =>
    let digs := rest.takeWhile isDigitCh
    if digs.length == 3 || digs.length == 6 then some (rest.drop digs.length) else none
  | l => some l

/-- `HH[:MM[:SS[.fff[fff]]]]`, fully consumed; components are range
checked afterwards by the caller. -/
def parseClock (l : List Char) : Option (ℕ × ℕ × ℕ) :=
  match parse2 l with
  | none => none
  | some (h, r1) =>
    match r1 with
    | [] => some (h, 0, 0)
    | ':' :: r2 =>
      match parse2 r2 with
      | none => none
      | some (m, r3) =>
        match r3 with
        | [] => some (h, m, 0)
        | ':' :: r4 =>
          match parse2 r4 with
          | none => none
          | some (s, r5) =>
            match parseFracOpt r5 with
            | none => none
            | some r6 => if r6.isEmpty then some (h, m, s) else none
        | _ => none
    | _ => none

/-- Optional seconds of the UTC offset: empty, or `:SS`. -/
def parseTzSecondsOpt : List Char → Option Unit
  | [] => some ()
  | ':' :: r4 =>
    match parse2 r4 with
    | none => none
    | some (ts, r5) => if r5.isEmpty && ts ≤ 59 then some () else none
  | _ => none

/-- UTC-offset part `±HH:MM[:SS]` (after the sign), fully consumed; the
offset value is discarded by `.time()`, only well-formedness matters. -/
def parseTzTail (l : List Char) : Option Unit :=
  match parse2 l with
  | none => none
  | some (th, r1) =>
    match expectColon r1 with
    | none => none
    | some r2 =>
      match parse2 r2 with
      | none => none
      | some (tm, r3) =>
        match parseTzSecondsOpt r3 with
        | none => none
        | some _ => if th ≤ 23 && tm ≤ 59 then some () else none

/-- Time-of-day part of `datetime.fromisoformat(s).time()`: clock,
optionally followed by a UTC offset; hour/minute/second are range
checked by the `datetime` constructor. -/
def parseIsoTime (l : List Char) : Option (ℕ × ℕ × ℕ) :=
  match parseClock (breakAtSign l).1 with
  | none => none
  | some (h, m, s) =>
    match (breakAtSign l).2 with
    | [] => if h ≤ 23 && m ≤ 59 && s ≤ 59 then some (h, m, s) else none
    | _ :: tzrest =>
      match parseTzTail tzrest with
      | none => none
      | some _ => if h ≤ 23 && m ≤ 59 && s ≤ 59 then some (h, m, s) else none

/-- `datetime.fromisoformat(time_str).time()` converted to seconds
since midnight: `YYYY-MM-DD`, optionally one separator character and a
time-of-day part. -/
def parseISO (l : List Char) : Option ℕ :=
  match parse4 l with
  | none => none
  | some (y, r1) =>
    match expectChar '-' r1 with
    | none => none
    | some r2 =>
      match parse2 r2 with
      | none => none
      | some (mo, r3) =>
        match expectChar '-' r3 with
        | none => none
        | some r4 =>
          match parse2 r4 with
          | none => none
          | some (d, r5) =>
            if 1 ≤ y && 1 ≤ mo && mo ≤ 12 && 1 ≤ d && d ≤ daysInMonth y mo then
              match r5 with
              | [] => some 0
              | _ :: r6 =>
                match parseIsoTime r6 with
                | none => none
                | some (h, m, s) => some (h * 3600 + m * 60 + s)
            else none

/-- `time_to_seconds` (source lines 189-209): try the 12-hour format,
then the 24-hour format, then ISO (with a trailing `'Z'` first replaced
by `"+00:00"`).  `none` models the re-raised parse failure. -/
def time_to_seconds (str : String) : Option ℕ :=
  let l := str.data
  match parse12h l with
  | some v => some v
  | none =>
    match parse24h l with
    | some v => some v
    | none =>
      let l' := if l.getLast? == some 'Z' then l.dropLast ++ ['+', '0', '0', ':', '0', '0'] else l
      parseISO l'

/-! ## Statistics engine (`calculate_statistics`, source lines 218-304)

Sunset seconds are non-negative integers, and every statistic the
source reports either is an integer computation (min, max, range,
counts) or is truncated with `int(...)` right before formatting
(mean, median, percentiles, per-group mean).  For non-negative integer
data these truncations have exact integer values, which is how they
are modelled (`intMean`, `intMedian`, `intPercentile`).  The two
sample-standard-deviation *values* are irrational in general; the code
only ever formats them or replaces them by `"N/A"`, and no claim reads
the numeric value, so the model carries the exact sample variance
(`sampleVariance`, the square of `statistics.stdev`) and the `"N/A"`
branching. -/

/-- One output record of the fetch phase (`zip_code`, `sunset_time`,
`timezone_offset`). -/
structure FetchResult where
  zip_code : String
  sunset_time : String
  timezone_offset : ℚ
deriving DecidableEq

/-- Stable ascending insertion (used to model Python's ascending sorts
inside `statistics.median` and `numpy.percentile`). -/
def sortedInsert (x : ℕ) : List ℕ → List ℕ
  | [] => [x]
  | y :: ys => if x < y then x :: y :: ys else y :: sortedInsert x ys

/-- Ascending sort. -/
def sortAsc : List ℕ → List ℕ
  | [] => []
  | x :: xs => sortedInsert x (sortAsc xs)

/-- `int(statistics.mean(xs))` for non-negative integer data: the mean
is exactly `xs.sum / xs.length` as a rational, and `int` truncates
toward zero, which for a non-negative value is the floor — natural
division. -/
def intMean (xs : List ℕ) : ℕ := xs.sum / xs.length

/-- `int(statistics.median(xs))` for non-negative integer data: middle
element for odd length, truncated average of the two middle elements
for even length. -/
def intMedian (xs : List ℕ) : ℕ :=
  let s := sortAsc xs
  let n := s.length
  if n % 2 == 1 then s.getD (n / 2) 0
  else (s.getD (n / 2 - 1) 0 + s.getD (n / 2) 0) / 2

/-- Exact rational mean (`statistics.mean`), used by the variance. -/
def meanQ (xs : List ℚ) : ℚ := xs.sum / xs.length

/-- Square of `statistics.stdev(xs)`: the sample variance
`Σ (x - x̄)² / (n - 1)`.  `statistics.stdev` itself raises
`StatisticsError` for fewer than two samples; callers in the model
guard for that. -/
def sampleVariance (xs : List ℚ) : ℚ :=
  (xs.map (fun x => (x - meanQ xs) ^ 2)).sum / ((xs.length : ℚ) - 1)

/-- Floor of a non-negative rational as a natural number (used by the
percentile interpolation index). -/
def ratFloorNat (q : ℚ) : ℕ := (q.num / (q.den : ℤ)).toNat

/-- `numpy.percentile(xs, p)` with the default linear interpolation,
on already non-negative integer data (result is rational). -/
def percentileQ (p : ℚ) (xs : List ℕ) : ℚ :=
  let s := sortAsc xs
  let n := s.length
  let pos := p / 100 * ((n : ℚ) - 1)
  let lo := ratFloorNat pos
  let a : ℚ := (s.getD lo 0 : ℕ)
  let b : ℚ := (s.getD (min (lo + 1) (n - 1)) 0 : ℕ)
  a + (pos - (lo : ℚ)) * (b - a)

/-- Per-timezone-offset group statistics (`timezone_stats`, source
lines 260-267).  `std_dev_minutes = none` models the `"N/A"` branch
taken when the group has fewer than two samples; `some v` carries the
sample variance whose square root (divided by 60) the code formats. -/
structure TzGroupStats where
  count : ℕ
  average : String
  std_dev_minutes : Option ℚ
deriving DecidableEq

/-- The summary dictionary built by `calculate_statistics`.  String
fields are the `seconds_to_time(int(...))` renderings the code
produces; `std_seconds_var` is the square of the reported overall
standard deviation; `time_range_seconds` is `max - min` (the code
formats it as minutes); `hour_count` is the `hour_distribution` count
per hour (the percentage field is pure formatting of `count` and
`total_locations`); `timezone_analysis` maps an offset to its group
statistics (`none` when no result has that offset). -/
structure StatsSummary where
  average_sunset : String
  median_sunset : String
  std_seconds_var : ℚ
  total_locations : ℕ
  earliest_time : String
  earliest_zip : String
  earliest_offset : ℚ
  latest_time : String
  latest_zip : String
  latest_offset : ℚ
  time_range_seconds : ℕ
  percentile_10 : String
  percentile_25 : String
  percentile_50 : String
  percentile_75 : String
  percentile_90 : String
  hour_count : ℕ → ℕ
  timezone_analysis : ℚ → Option TzGroupStats

/-- Result of `calculate_statistics`: the empty dictionary for empty
input, or the full summary. -/
inductive StatsOutcome where
  | empty : StatsOutcome
  | stats : StatsSummary → StatsOutcome

/-- `[time_to_seconds(r['sunset_time']) for r in results]`: the first
parse failure raises (`none`). -/
def parseAllTimes : List FetchResult → Option (List ℕ)
  | [] => some []
  | r :: rs =>
    match time_to_seconds r.sunset_time with
    | none => none
    | some v =>
      match parseAllTimes rs with
      | none => none
      | some vs => some (v :: vs)

/-- Re-parse of one record inside the grouping loops (source line 258);
in the success path of `calculate_statistics` every record has already
parsed, so the `getD` default is unreachable. -/
def secsOf (r : FetchResult) : ℕ := (time_to_seconds r.sunset_time).getD 0

/-- Minimum of a list of naturals (Python's `min`, callers guarantee
non-empty). -/
def listMinN (xs : List ℕ) : ℕ := xs.foldl min (xs.headD 0)

/-- Maximum of a list of naturals (Python's `max`). -/
def listMaxN (xs : List ℕ) : ℕ := xs.foldl max (xs.headD 0)

/-- `calculate_statistics` (source lines 218-304).  Outer `none` models
a raised exception: a time-parse failure re-raised from
`time_to_seconds`, or the `StatisticsError` that `statistics.stdev`
raises on line 229 when there are fewer than two results. -/
def calculate_statistics (results : List FetchResult) : Option StatsOutcome :=
  if results.isEmpty then some .empty
  else
    match parseAllTimes results with
    | none => none
    | some seconds_list =>
      if seconds_list.length < 2 then none
      else
        let dflt : FetchResult := ⟨"", "", 0⟩
        let earliest_data := results.getD (seconds_list.findIdx (· == listMinN seconds_list)) dflt
        let latest_data := results.getD (seconds_list.findIdx (· == listMaxN seconds_list)) dflt
        some (.stats
          { average_sunset := seconds_to_time (intMean seconds_list)
            median_sunset := seconds_to_time (intMedian seconds_list)
            std_seconds_var := sampleVariance (seconds_list.map (fun n => (n : ℚ)))
            total_locations := results.length
            earliest_time := earliest_data.sunset_time
            earliest_zip := earliest_data.zip_code
            earliest_offset := earliest_data.timezone_offset
            latest_time := latest_data.sunset_time
            latest_zip := latest_data.zip_code
            latest_offset := latest_data.timezone_offset
            time_range_seconds := listMaxN seconds_list - listMinN seconds_list
            percentile_10 := seconds_to_time (ratFloorNat (percentileQ 10 seconds_list))
            percentile_25 := seconds_to_time (ratFloorNat (percentileQ 25 seconds_list))
            percentile_50 := seconds_to_time (ratFloorNat (percentileQ 50 seconds_list))
            percentile_75 := seconds_to_time (ratFloorNat (percentileQ 75 seconds_list))
            percentile_90 := seconds_to_time (ratFloorNat (percentileQ 90 seconds_list))
            hour_count := fun h => (seconds_list.filter (fun s => s / 3600 == h)).length
            timezone_analysis := fun off =>
              let grp := results.filter (fun r => decide (r.timezone_offset = off))
              if grp.isEmpty then none
              else
                some { count := grp.length
                       average := seconds_to_time (intMean (grp.map secsOf))
                       std_dev_minutes :=
                         if 1 < grp.length then
                           some (sampleVariance (grp.map (fun r => (secsOf r : ℚ))))
                         else none } })

/-! ## Grid keyer (`GeographicBatcher._get_grid_coordinates`) -/

/-- `GRID_SIZE` (source line 25): grid step in degrees. -/
def GRID_SIZE : ℚ := 1

/-- Floor of a rational, as the source's `np.floor` (kernel-executable;
equal to `Int.floor` by `Rat.floor_def`). -/
def ratFloor (q : ℚ) : ℤ := q.num / (q.den : ℤ)

/-- `_get_grid_coordinates` (source lines 61-65):
`(floor(lat/GRID_SIZE)*GRID_SIZE, floor(lon/GRID_SIZE)*GRID_SIZE)`. -/
def get_grid_coordinates (lat lon : ℚ) : ℚ × ℚ :=
  ((ratFloor (lat / GRID_SIZE) : ℤ) * GRID_SIZE, (ratFloor (lon / GRID_SIZE) : ℤ) * GRID_SIZE)

/-! ## Geographic batcher (`GeographicBatcher.prepare_batches`) -/

/-- One resolved location dictionary appended to the grid map (source
lines 91-96). -/
structure Location where
  zip_code : String
  lat : ℚ
  lon : ℚ
  timezone_offset : ℚ
deriving DecidableEq

/-- The fields of `zipcodes.matching(zip)[0]` that the source reads. -/
structure ZipInfo where
  state : String
  lat : ℚ
  lon : ℚ
deriving DecidableEq

/-- External collaborators of `prepare_batches`: `zipcodes.matching`
(`none` models the empty match list), `TimezoneFinder.timezone_at`
(`none` models no timezone found) and the pytz current-UTC-offset
computation for a timezone name. -/
structure GeoEnv where
  matching : String → Option ZipInfo
  timezone_at : ℚ → ℚ → Option String
  utc_offset_hours : String → ℚ

/-- The excluded regions of `_is_contiguous_us` (source lines 55-59). -/
def excluded_states : List String := ["AK", "HI", "PR"]

/-- `_is_contiguous_us`: `state not in ['AK', 'HI', 'PR']`. -/
def is_contiguous_us (z : ZipInfo) : Bool := !(excluded_states.contains z.state)

/-- One iteration of the `prepare_batches` loop body on the current
grid map `gm` and ZIP code `z` (source lines 69-96): a bare `continue`
(returning `gm` unchanged, recording nothing) when the identifier does
not resolve, is excluded, or has no timezone; otherwise append the
location to its grid cell's list. -/
def batchStep (env : GeoEnv) (gm : ℚ × ℚ → List Location) (z : String) : ℚ × ℚ → List Location :=
  match env.matching z with
  | none => gm
  | some info =>
    if !is_contiguous_us info then gm
    else
      match env.timezone_at info.lat info.lon with
      | none => gm
      | some tzname =>
        let loc : Location := ⟨z, info.lat, info.lon, env.utc_offset_hours tzname⟩
        let coords := get_grid_coordinates info.lat info.lon
        fun g => if g = coords then gm g ++ [loc] else gm g

/-- `prepare_batches` (source lines 67-98): fold the loop body over the
input ZIP codes, starting from the empty `defaultdict(list)`. -/
def prepare_batches (env : GeoEnv) (zip_codes : List String) : ℚ × ℚ → List Location :=
  zip_codes.foldl (batchStep env) (fun _ => [])

/-! ## Rate limiter (`RateLimiter`, source lines 100-113)

Real time is idealized: `acquire` is called at clock value `now`, the
lock admits callers one at a time, `asyncio.sleep(d)` returns after
exactly `d` seconds, and no time passes between the wake-up and the
`self.last_call = time.time()` store.  Under this idealization the
grant time of an acquire called at `now` is `now` itself when at least
`min_interval` has elapsed since the previous grant, and
`last_call + min_interval` otherwise. -/

structure RateLimiter where
  calls_per_second : ℚ
  min_interval : ℚ
  last_call : ℚ
deriving DecidableEq

/-- `RateLimiter.__init__`: `min_interval = 1.0 / calls_per_second`,
`last_call = 0`. -/
def RateLimiter.init (cps : ℚ) : RateLimiter := ⟨cps, 1 / cps, 0⟩

/-- The clock value at which an `acquire` called at time `now` stores
`self.last_call = time.time()` and returns. -/
def RateLimiter.grant (rl : RateLimiter) (now : ℚ) : ℚ :=
  if now - rl.last_call < rl.min_interval then now + (rl.min_interval - (now - rl.last_call))
  else now

/-- `RateLimiter.acquire` as a state transformer: the new limiter state
and the grant time. -/
def RateLimiter.acquire (rl : RateLimiter) (now : ℚ) : RateLimiter × ℚ :=
  ({ rl with last_call := rl.grant now }, rl.grant now)

/-- Grant times of a sequence of acquires on a shared limiter, the
i-th acquire being called at clock value `nows[i]`. -/
def grantTimes (rl : RateLimiter) : List ℚ → List ℚ
  | [] => []
  | now :: rest => rl.grant now :: grantTimes (rl.acquire now).1 rest

/-! ## Fetch orchestration (`fetch_grid_sunset`, source lines 115-187)

The cache is modelled as a map from grid coordinates to the cached
sunset text (`None` = absent or expired; the Redis TTL makes expired
entries absent on read).  The HTTP call is modelled by an
`ApiOutcome` parameter: an exception (timeout / I/O error), or a
response with its status code and the optionally present
`data["results"]["sunset"]` field.  `acquires` and `apiCalls` count
`rate_limiter.acquire()` calls and HTTP requests, so that frame
claims ("no rate-limiter involvement") are statements about the
state. -/

/-- Outcome of the `session.get` call for one grid cell. -/
inductive ApiOutcome where
  | exn : ApiOutcome
  | response : ℕ → Option String → ApiOutcome
deriving DecidableEq

/-- Mutable state threaded through fetches: the cache, the shared rate
limiter, and instrumentation counters. -/
structure FetchState where
  cache : ℚ × ℚ → Option String
  rl : RateLimiter
  acquires : ℕ
  apiCalls : ℕ

/-- The per-location result records built for a cell from sunset text
`t` (source lines 130-137 and 173-181). -/
def broadcastResults (locations : List Location) (t : String) : List FetchResult :=
  locations.map (fun loc => ⟨loc.zip_code, t, loc.timezone_offset⟩)

/-- `fetch_grid_sunset`: check the cache; on a hit synthesize one
result per location from the cached text and return with the state
untouched.  On a miss, `acquire()` the limiter (at clock value `now`)
and perform the API call; on a non-200 status, a missing
`results`/`sunset` field, or an exception, return no results and leave
the cache unwritten; on success write the cell's cache entry and
synthesize one result per location. -/
def fetch_grid_sunset (grid_lat grid_lon : ℚ) (locations : List Location)
    (outcome : ApiOutcome) (now : ℚ) (st : FetchState) :
    List FetchResult × FetchState :=
  match st.cache (grid_lat, grid_lon) with
  | some text => (broadcastResults locations text, st)
  | none =>
    let st1 : FetchState :=
      { st with rl := (st.rl.acquire now).1, acquires := st.acquires + 1,
                apiCalls := st.apiCalls + 1 }
    match outcome with
    | .exn => ([], st1)
    | .response status sunsetField =>
      if status ≠ 200 then ([], st1)
      else
        match sunsetField with
        | none => ([], st1)
        | some text =>
          ({ st1 with
              cache := fun g => if g = (grid_lat, grid_lon) then some text else st1.cache g }
            |> fun st2 => (broadcastResults locations text, st2))

/-- One grid cell's fetch task: its coordinates, its locations, the
outcome its API call would have, and the clock value at which its
acquire happens. -/
structure CellTask where
  grid_lat : ℚ
  grid_lon : ℚ
  locations : List Location
  outcome : ApiOutcome
  now : ℚ

/-- The run's fetch loop over cells (`process_all_zips` gathers the
per-cell result lists in task order and concatenates them); modelled
sequentially — each cell is fetched once per run. -/
def runCells : List CellTask → FetchState → List FetchResult × FetchState
  | [], st => ([], st)
  | c :: cs, st =>
    ((fetch_grid_sunset c.grid_lat c.grid_lon c.locations c.outcome c.now st).1 ++
       (runCells cs (fetch_grid_sunset c.grid_lat c.grid_lon c.locations c.outcome c.now st).2).1,
     (runCells cs (fetch_grid_sunset c.grid_lat c.grid_lon c.locations c.outcome c.now st).2).2)

/-- The fetch failure conditions of the source's three early returns:
an exception, a non-200 status, or a missing `results`/`sunset`
field. -/
def isFailureOutcome : ApiOutcome → Bool
  | .exn => true
  | .response status sunsetField => status ≠ 200 || sunsetField.isNone

/-! ## General lemmas -/

/-- `ratFloor` agrees with the mathematical floor. -/
theorem ratFloor_eq_floor (q : ℚ) : ratFloor q = ⌊q⌋ := Rat.floor_def.symm

/-- Results of a hit or of a successful miss are the broadcast list. -/
theorem fetch_results_eq_broadcast (grid_lat grid_lon : ℚ) (locations : List Location)
    (outcome : ApiOutcome) (now : ℚ) (st : FetchState) (t : String)
    (h : st.cache (grid_lat, grid_lon) = some t ∨
         (st.cache (grid_lat, grid_lon) = none ∧ outcome = .response 200 (some t))) :
    (fetch_grid_sunset grid_lat grid_lon locations outcome now st).1 =
      broadcastResults locations t := by
  rcases h with hc | ⟨hc, ho⟩
  · simp [fetch_grid_sunset, hc]
  · subst ho
    simp [fetch_grid_sunset, hc]

/-- The result list and the cache evolution of a fetch depend on the
state only through its cache component. -/
theorem fetch_cache_only (g1 g2 : ℚ) (locs : List Location) (o : ApiOutcome) (now : ℚ)
    (st st' : FetchState) (hc : st.cache = st'.cache) :
    (fetch_grid_sunset g1 g2 locs o now st).1 = (fetch_grid_sunset g1 g2 locs o now st').1 ∧
    (fetch_grid_sunset g1 g2 locs o now st).2.cache =
      (fetch_grid_sunset g1 g2 locs o now st').2.cache := by
  unfold fetch_grid_sunset
  rw [hc]
  cases hcv : st'.cache (g1, g2) with
  | some t => simp [hc]
  | none =>
    cases o with
    | exn => simp [hc]
    | response status f =>
      by_cases hs : status = 200
      · subst hs
        cases f with
        | none => simp [hc]
        | some t => simp [hc]
      · simp [hs, hc]

/-- The concatenated results of a run depend on the initial state only
through its cache component. -/
theorem runCells_results_cache (cs : List CellTask) : ∀ st st' : FetchState,
    st.cache = st'.cache → (runCells cs st).1 = (runCells cs st').1 := by
  induction cs with
  | nil => intro st st' _; rfl
  | cons c cs ih =>
    intro st st' h
    have h1 := fetch_cache_only c.grid_lat c.grid_lon c.locations c.outcome c.now st st' h
    simp only [runCells]
    rw [h1.1, ih _ _ h1.2]

/-- A skipped identifier leaves the grid map unchanged. -/
theorem batchStep_skip (env : GeoEnv) (z : String)
    (h : env.matching z = none ∨
         ∃ info, env.matching z = some info ∧ is_contiguous_us info = true ∧
           env.timezone_at info.lat info.lon = none) (gm : ℚ × ℚ → List Location) :
    batchStep env gm z = gm := by
  rcases h with hm | ⟨info, hm, hcg, ht⟩
  · simp [batchStep, hm]
  · simp [batchStep, hm, hcg, ht]

/-- Each acquire is granted no earlier than one minimum interval after
the previous grant stored in `last_call`. -/
theorem grant_ge (rl : RateLimiter) (now : ℚ) :
    rl.last_call + rl.min_interval ≤ rl.grant now := by
  unfold RateLimiter.grant
  split
  · linarith
  · next h => linarith [not_lt.mp h]

/-- Consecutive grant times are spaced by at least `min_interval`. -/
theorem grantTimes_chain (ns : List ℚ) : ∀ rl : RateLimiter,
    List.Chain' (fun a b => a + rl.min_interval ≤ b) (grantTimes rl ns) := by
  induction ns with
  | nil => intro rl; simp [grantTimes]
  | cons n rest ih =>
    intro rl
    simp only [grantTimes]
    rw [List.chain'_cons']
    refine ⟨?_, ih (rl.acquire n).1⟩
    intro b hb
    cases rest with
    | nil => simp [grantTimes] at hb
    | cons n2 rest2 =>
      simp only [grantTimes, List.head?, Option.mem_def, Option.some.injEq] at hb
      subst hb
      have := grant_ge (rl.acquire n).1 n2
      simpa [RateLimiter.acquire] using this

/-- As many grant times as acquires. -/
theorem grantTimes_length (ns : List ℚ) : ∀ rl : RateLimiter,
    (grantTimes rl ns).length = ns.length := by
  induction ns with
  | nil => intro rl; rfl
  | cons n rest ih => intro rl; simp [grantTimes, ih]

/-- A chain of steps of at least `m` spans at least `(length - 1) * m`
from its first to its last element. -/
theorem chain_le_span (m : ℚ) (l : List ℚ) (h : List.Chain' (fun a b => a + m ≤ b) l)
    (hne : l ≠ []) :
    l.headD 0 + ((l.length - 1 : ℕ) : ℚ) * m ≤ l.getLastD 0 := by
  induction l with
  | nil => cases hne rfl
  | cons a t ih =>
    cases t with
    | nil => simp
    | cons b t2 =>
      rw [List.chain'_cons] at h
      have hih := ih h.2 (by simp)
      have e1 : (a :: b :: t2).getLastD 0 = (b :: t2).getLastD 0 := by
        simp [List.getLastD_cons]
      have e2 : (((a :: b :: t2).length - 1 : ℕ) : ℚ) = (((b :: t2).length - 1 : ℕ) : ℚ) + 1 := by
        simp
      rw [e1, e2]
      have expand : ((((b :: t2).length - 1 : ℕ) : ℚ) + 1) * m
          = (((b :: t2).length - 1 : ℕ) : ℚ) * m + m := by ring
      rw [List.headD_cons] at hih ⊢
      rw [expand]
      linarith [h.1, hih]

/-! ## Shared witness data -/

/-- A cache holding an unexpired entry for cell `(40, -75)`. -/
def wCache : ℚ × ℚ → Option String :=
  fun g => if g = ((40 : ℚ), (-75 : ℚ)) then some "7:30:00 PM" else none

/-- A fetch state whose cache holds cell `(40, -75)`. -/
def wState : FetchState := ⟨wCache, RateLimiter.init 10, 0, 0⟩

/-- A fetch state with an empty cache. -/
def wEmptyState : FetchState := ⟨fun _ => none, RateLimiter.init 10, 0, 0⟩

/-- Five locations grouped into the cell `(40, -75)`. -/
def wLocs : List Location :=
  [⟨"08401", 40, -75, -5⟩, ⟨"08402", 40, -75, -5⟩, ⟨"08403", 40, -75, -5⟩,
   ⟨"08404", 40, -75, -5⟩, ⟨"08405", 40, -75, -5⟩]

/-! ## Claim C6 -/

/-- C6: for every latitude and longitude, the grid cell computed by
`_get_grid_coordinates` satisfies `cellLat ≤ lat < cellLat + GRID_SIZE`
and `cellLon ≤ lon < cellLon + GRID_SIZE`.  (Determinism and purity are
immediate: `get_grid_coordinates` is a function of `lat` and `lon`
alone.) -/
theorem grid_cell_bounds (lat lon : ℚ) :
    (get_grid_coordinates lat lon).1 ≤ lat ∧
    lat < (get_grid_coordinates lat lon).1 + GRID_SIZE ∧
    (get_grid_coordinates lat lon).2 ≤ lon ∧
    lon < (get_grid_coordinates lat lon).2 + GRID_SIZE := by
  have hf : ∀ q : ℚ, ((ratFloor q : ℤ) : ℚ) ≤ q ∧ q < ((ratFloor q : ℤ) : ℚ) + 1 := by
    intro q
    rw [ratFloor_eq_floor]
    exact ⟨Int.floor_le q, Int.lt_floor_add_one q⟩
  simp only [get_grid_coordinates, GRID_SIZE, div_one, mul_one]
  exact ⟨(hf lat).1, (hf lat).2, (hf lon).1, (hf lon).2⟩

/-! ## Claim C1 -/

/-- C1: for a grid cell served from cache or by a successful API call,
`fetch_grid_sunset` produces exactly one FetchResult per Location (in
order, with the Locations' identifiers) and every result carries the
same sunset text. -/
theorem fetch_one_result_per_location_same_text (grid_lat grid_lon : ℚ)
    (locations : List Location) (outcome : ApiOutcome) (now : ℚ) (st : FetchState) (t : String)
    (h : st.cache (grid_lat, grid_lon) = some t ∨
         (st.cache (grid_lat, grid_lon) = none ∧ outcome = .response 200 (some t))) :
    (fetch_grid_sunset grid_lat grid_lon locations outcome now st).1.length =
      locations.length ∧
    (fetch_grid_sunset grid_lat grid_lon locations outcome now st).1.map
      FetchResult.zip_code = locations.map Location.zip_code ∧
    ∀ r ∈ (fetch_grid_sunset grid_lat grid_lon locations outcome now st).1,
      r.sunset_time = t := by
  rw [fetch_results_eq_broadcast grid_lat grid_lon locations outcome now st t h]
  refine ⟨by simp [broadcastResults], by simp [broadcastResults, List.map_map, Function.comp_def], ?_⟩
  intro r hrm
  rw [broadcastResults, List.mem_map] at hrm
  obtain ⟨loc, _, rfl⟩ := hrm
  rfl

/-- C1 witness: one cell with 5 locations served from cache — 5 results,
matching identifiers, all with the same sunset text. -/
theorem fetch_one_result_per_location_same_text_witness :
    wState.cache (40, -75) = some "7:30:00 PM" ∧
    ((fetch_grid_sunset 40 (-75) wLocs .exn 0 wState).1.length = wLocs.length ∧
     (fetch_grid_sunset 40 (-75) wLocs .exn 0 wState).1.map FetchResult.zip_code =
       wLocs.map Location.zip_code ∧
     ∀ r ∈ (fetch_grid_sunset 40 (-75) wLocs .exn 0 wState).1,
       r.sunset_time = "7:30:00 PM") :=
  ⟨by decide,
   fetch_one_result_per_location_same_text 40 (-75) wLocs .exn 0 wState "7:30:00 PM"
     (Or.inl (by decide))⟩

/-! ## Claim C2 -/

/-- C2: on a cache hit, `fetch_grid_sunset` synthesizes the results from
the cached text and returns the state untouched — in particular no
`RateLimiter.acquire` happens (`acquires` and `rl` unchanged) and no
API call is made (`apiCalls` unchanged). -/
theorem fetch_cache_hit_no_acquire (grid_lat grid_lon : ℚ) (locations : List Location)
    (outcome : ApiOutcome) (now : ℚ) (st : FetchState) (t : String)
    (h : st.cache (grid_lat, grid_lon) = some t) :
    (fetch_grid_sunset grid_lat grid_lon locations outcome now st).1 =
      broadcastResults locations t ∧
    (fetch_grid_sunset grid_lat grid_lon locations outcome now st).2 = st ∧
    (fetch_grid_sunset grid_lat grid_lon locations outcome now st).2.rl = st.rl ∧
    (fetch_grid_sunset grid_lat grid_lon locations outcome now st).2.acquires = st.acquires ∧
    (fetch_grid_sunset grid_lat grid_lon locations outcome now st).2.apiCalls = st.apiCalls := by
  have h2 : (fetch_grid_sunset grid_lat grid_lon locations outcome now st).2 = st := by
    simp [fetch_grid_sunset, h]
  exact ⟨by simp [fetch_grid_sunset, h], h2, by rw [h2], by rw [h2], by rw [h2]⟩

/-- C2 witness: a second fetch of cell `(40, -75)` within the TTL window
(entry present) leaves the limiter, the acquire count and the call
count unchanged, even though the API call would have failed. -/
theorem fetch_cache_hit_no_acquire_witness :
    wState.cache (40, -75) = some "7:30:00 PM" ∧
    ((fetch_grid_sunset 40 (-75) wLocs .exn 0 wState).1 =
       broadcastResults wLocs "7:30:00 PM" ∧
     (fetch_grid_sunset 40 (-75) wLocs .exn 0 wState).2 = wState ∧
     (fetch_grid_sunset 40 (-75) wLocs .exn 0 wState).2.rl = wState.rl ∧
     (fetch_grid_sunset 40 (-75) wLocs .exn 0 wState).2.acquires = wState.acquires ∧
     (fetch_grid_sunset 40 (-75) wLocs .exn 0 wState).2.apiCalls = wState.apiCalls) :=
  ⟨by decide, fetch_cache_hit_no_acquire 40 (-75) wLocs .exn 0 wState "7:30:00 PM" (by decide)⟩

/-! ## Claim C7 -/

/-- C7: on a cache miss whose API call fails — exception/timeout,
non-200 status, or missing `results`/`sunset` field — the cell
contributes no FetchResult, nothing is written to the cache, exactly
one acquire and one API call happen (no retry), and the results of the
remaining cells are exactly what they would have been without the
failing cell. -/
theorem fetch_failure_drops_cell_only (grid_lat grid_lon : ℚ) (locations : List Location)
    (outcome : ApiOutcome) (now : ℚ) (st : FetchState)
    (hmiss : st.cache (grid_lat, grid_lon) = none)
    (hfail : isFailureOutcome outcome = true) :
    (fetch_grid_sunset grid_lat grid_lon locations outcome now st).1 = [] ∧
    (fetch_grid_sunset grid_lat grid_lon locations outcome now st).2.cache = st.cache ∧
    (fetch_grid_sunset grid_lat grid_lon locations outcome now st).2.acquires =
      st.acquires + 1 ∧
    (fetch_grid_sunset grid_lat grid_lon locations outcome now st).2.apiCalls =
      st.apiCalls + 1 ∧
    ∀ rest : List CellTask,
      (runCells (⟨grid_lat, grid_lon, locations, outcome, now⟩ :: rest) st).1 =
        (runCells rest st).1 := by
  have hsh : fetch_grid_sunset grid_lat grid_lon locations outcome now st =
      ([], { st with rl := (st.rl.acquire now).1, acquires := st.acquires + 1,
                     apiCalls := st.apiCalls + 1 }) := by
    unfold fetch_grid_sunset
    rw [hmiss]
    cases outcome with
    | exn => rfl
    | response status f =>
      by_cases hs : status = 200
      · subst hs
        simp only [isFailureOutcome, ne_eq, not_true_eq_false, decide_False,
          Bool.false_or] at hfail
        have hf : f = none := Option.isNone_iff_eq_none.mp hfail
        subst hf
        simp
      · simp [hs]
  refine ⟨by rw [hsh], by rw [hsh], by rw [hsh], by rw [hsh], ?_⟩
  intro rest
  simp only [runCells]
  rw [hsh]
  simp only [List.nil_append]
  exact runCells_results_cache rest _ st rfl

/-- C7 witness: a timed-out cell with 5 locations contributes nothing,
caches nothing, consumes one acquire and one call, and a subsequent
cell's results are unchanged. -/
theorem fetch_failure_drops_cell_only_witness :
    wEmptyState.cache (40, -75) = none ∧
    isFailureOutcome .exn = true ∧
    ((fetch_grid_sunset 40 (-75) wLocs .exn 0 wEmptyState).1 = [] ∧
     (fetch_grid_sunset 40 (-75) wLocs .exn 0 wEmptyState).2.cache = wEmptyState.cache ∧
     (fetch_grid_sunset 40 (-75) wLocs .exn 0 wEmptyState).2.acquires =
       wEmptyState.acquires + 1 ∧
     (fetch_grid_sunset 40 (-75) wLocs .exn 0 wEmptyState).2.apiCalls =
       wEmptyState.apiCalls + 1 ∧
     (runCells (⟨40, -75, wLocs, .exn, 0⟩ ::
         [⟨41, -75, wLocs, .response 200 (some "8:00:00 PM"), 1⟩]) wEmptyState).1 =
       (runCells [⟨41, -75, wLocs, .response 200 (some "8:00:00 PM"), 1⟩] wEmptyState).1) :=
  ⟨by decide, by decide,
   by
    have h := fetch_failure_drops_cell_only 40 (-75) wLocs .exn 0 wEmptyState
      (by decide) (by decide)
    exact ⟨h.1, h.2.1, h.2.2.1, h.2.2.2.1,
      h.2.2.2.2 [⟨41, -75, wLocs, .response 200 (some "8:00:00 PM"), 1⟩]⟩⟩

/-! ## Claim C9 -/

/-- A batcher environment in which `"08540"` resolves and every other
identifier fails to resolve. -/
def c9Env : GeoEnv :=
  ⟨fun z => if z == "08540" then some ⟨"NJ", 40, -75⟩ else none,
   fun _ _ => some "America/New_York",
   fun _ => -4⟩

/-- C9 counterexample: the grid map produced from
`["99999", "08540"]` (where `"99999"` does not resolve) is *identical*
to the one produced from `["08540"]` alone: the drop leaves no trace
whatsoever in the batcher's state — `prepare_batches` records no count
of failed resolutions (the loop body is a bare `continue`), refuting
"with a recorded count of such drops, not silently lost". -/
theorem prepare_batches_no_drop_record :
    prepare_batches c9Env ["99999", "08540"] = prepare_batches c9Env ["08540"] := rfl

/-- C9 (amended): an identifier whose resolution fails (no match, or no
determinable timezone) is dropped from the grid map silently — the
output is the one of the input without that identifier; no drop count
is recorded. -/
theorem prepare_batches_drop_silent (env : GeoEnv) (z : String)
    (h : env.matching z = none ∨
         ∃ info, env.matching z = some info ∧ is_contiguous_us info = true ∧
           env.timezone_at info.lat info.lon = none)
    (pre post : List String) :
    prepare_batches env (pre ++ z :: post) = prepare_batches env (pre ++ post) := by
  simp only [prepare_batches, List.foldl_append, List.foldl_cons]
  rw [batchStep_skip env z h]

/-- C9 witness: dropping the unresolvable `"99999"` between two other
inputs changes nothing. -/
theorem prepare_batches_drop_silent_witness :
    c9Env.matching "99999" = none ∧
    prepare_batches c9Env (["07001"] ++ "99999" :: ["08540"]) =
      prepare_batches c9Env (["07001"] ++ ["08540"]) :=
  ⟨by decide, prepare_batches_drop_silent c9Env "99999" (Or.inl (by decide)) ["07001"] ["08540"]⟩

/-! ## Claim C3 -/

/-- C3: on a limiter configured with `calls_per_second = cps`, any
sequence of acquires is granted with consecutive grant times at least
`1/cps` apart, and hence the whole sequence of `N` grants spans at
least `(N - 1) * (1/cps)` seconds of (idealized) clock time. -/
theorem rateLimiter_acquire_spacing (cps : ℚ) (_hcps : 0 < cps) (nows : List ℚ)
    (hne : nows ≠ []) :
    List.Chain' (fun a b => a + 1 / cps ≤ b) (grantTimes (RateLimiter.init cps) nows) ∧
    (grantTimes (RateLimiter.init cps) nows).headD 0 +
        ((nows.length - 1 : ℕ) : ℚ) * (1 / cps) ≤
      (grantTimes (RateLimiter.init cps) nows).getLastD 0 := by
  have hchain := grantTimes_chain nows (RateLimiter.init cps)
  have hmin : (RateLimiter.init cps).min_interval = 1 / cps := rfl
  simp only [hmin] at hchain
  have hne2 : grantTimes (RateLimiter.init cps) nows ≠ [] := by
    cases nows with
    | nil => exact absurd rfl hne
    | cons a t => simp [grantTimes]
  have hspan := chain_le_span (1 / cps) _ hchain hne2
  rw [grantTimes_length nows (RateLimiter.init cps)] at hspan
  exact ⟨hchain, hspan⟩

/-- C3 witness: three acquires at rate 10/s. -/
theorem rateLimiter_acquire_spacing_witness :
    (0 : ℚ) < 10 ∧ ([(0 : ℚ), 0, 0] ≠ []) ∧
    (List.Chain' (fun a b => a + 1 / 10 ≤ b) (grantTimes (RateLimiter.init 10) [0, 0, 0]) ∧
     (grantTimes (RateLimiter.init 10) [0, 0, 0]).headD 0 +
         ((([(0 : ℚ), 0, 0].length - 1 : ℕ)) : ℚ) * (1 / 10) ≤
       (grantTimes (RateLimiter.init 10) [0, 0, 0]).getLastD 0) :=
  ⟨by decide, by decide, rateLimiter_acquire_spacing 10 (by decide) [0, 0, 0] (by decide)⟩

/-! ## Lemmas for the time codec -/

/-- Rendering a digit gives a digit character. -/
theorem isDigitCh_digitChar {d : ℕ} (hd : d ≤ 9) : isDigitCh (digitChar d) = true := by
  have h : ∀ e, e < 10 → isDigitCh (digitChar e) = true := by decide
  exact h d (by omega)

/-- Reading back a rendered digit. -/
theorem digitVal_digitChar {d : ℕ} (hd : d ≤ 9) : digitVal (digitChar d) = d := by
  have h : ∀ e, e < 10 → digitVal (digitChar e) = e := by decide
  exact h d (by omega)

/-- A digit character is not the `':'` separator. -/
theorem expectColon_digitChar {d : ℕ} (hd : d ≤ 9) (rest : List Char) :
    expectColon (digitChar d :: rest) = none := by
  interval_cases d <;> rfl

/-- `pad2` on a two-digit value. -/
theorem pad2_eq {n : ℕ} (hn : n < 100) :
    pad2 n = [digitChar (n / 10), digitChar (n % 10)] := by
  simp [pad2, hn]

/-- Evaluation of `matchField` on two digit characters. -/
theorem matchField_digits (v2 : ℕ → ℕ → Bool) (v1 : ℕ → Bool) {d1 d2 : ℕ}
    (h1 : d1 ≤ 9) (h2 : d2 ≤ 9) (rest : List Char) :
    matchField v2 v1 (digitChar d1 :: digitChar d2 :: rest) =
      if v2 d1 d2 then some (10 * d1 + d2, rest)
      else if v1 d1 then some (d1, digitChar d2 :: rest)
      else none := by
  simp only [matchField, isDigitCh_digitChar h1, isDigitCh_digitChar h2,
    digitVal_digitChar h1, digitVal_digitChar h2, Bool.true_and, if_true]

/-- A two-digit field accepted by its two-digit alternative consumes
exactly the two rendered digits. -/
theorem matchField_pad2 (v2 : ℕ → ℕ → Bool) (v1 : ℕ → Bool) {n : ℕ} (hn : n < 100)
    (hv : v2 (n / 10) (n % 10) = true) (rest : List Char) :
    matchField v2 v1 (pad2 n ++ rest) = some (n, rest) := by
  rw [pad2_eq hn]
  simp only [List.cons_append, List.nil_append]
  rw [matchField_digits v2 v1 (by omega) (by omega) rest, if_pos hv]
  have hsplit : 10 * (n / 10) + n % 10 = n := by omega
  rw [hsplit]

/-- Same, at the end of the input. -/
theorem matchField_pad2_nil (v2 : ℕ → ℕ → Bool) (v1 : ℕ → Bool) {n : ℕ} (hn : n < 100)
    (hv : v2 (n / 10) (n % 10) = true) :
    matchField v2 v1 (pad2 n) = some (n, []) := by
  have h := matchField_pad2 v2 v1 hn hv []
  rwa [List.append_nil] at h

/-- `parseHMS` on a rendered `HH:MM:SS` string whose hour field is
accepted by the two-digit alternative. -/
theorem parseHMS_pad2 (v2 : ℕ → ℕ → Bool) (v1 : ℕ → Bool) {h m c : ℕ}
    (hh : h < 100) (hm : m < 60) (hc : c < 60) (hv : v2 (h / 10) (h % 10) = true) :
    parseHMS v2 v1 (pad2 h ++ ':' :: (pad2 m ++ ':' :: pad2 c)) = some (h, m, c, []) := by
  have hm2 : validM2 (m / 10) (m % 10) = true := by
    simp [validM2]
    omega
  have hc2 : validS2 (c / 10) (c % 10) = true := by
    simp [validS2]
    omega
  simp only [parseHMS, matchField_pad2 v2 v1 hh hv,
    matchField_pad2 validM2 validM1 (show m < 100 by omega) hm2,
    matchField_pad2_nil validS2 validS1 (show c < 100 by omega) hc2, expectColon]

/-- The 24-hour strptime succeeds on every rendered `HH:MM:SS`. -/
theorem parse24h_pad2 {h m c : ℕ} (hh : h < 24) (hm : m < 60) (hc : c < 60) :
    parse24h (pad2 h ++ ':' :: (pad2 m ++ ':' :: pad2 c)) =
      some (h * 3600 + m * 60 + c) := by
  have hv : validH2 (h / 10) (h % 10) = true := by
    simp [validH2]
    omega
  simp only [parse24h, parseHMS_pad2 validH2 validH1 (by omega) hm hc hv]
  simp [show c ≤ 59 by omega]

/-- The 12-hour strptime fails on every rendered `HH:MM:SS` (no
meridiem suffix; and for hours `0` and `13..23` already the `%I` field
or the following separator fails). -/
theorem parse12h_pad2_none {h m c : ℕ} (hh : h < 24) (hm : m < 60) (hc : c < 60) :
    parse12h (pad2 h ++ ':' :: (pad2 m ++ ':' :: pad2 c)) = none := by
  by_cases hv : validI2 (h / 10) (h % 10) = true
  · simp only [parse12h, parseHMS_pad2 validI2 validI1 (by omega) hm hc hv,
      parseMeridiemTail]
  · by_cases hv1 : validI1 (h / 10) = true
    · simp only [parse12h, parseHMS]
      rw [pad2_eq (show h < 100 by omega)]
      simp only [List.cons_append, List.nil_append]
      rw [matchField_digits validI2 validI1 (by omega) (by omega) _, if_neg hv, if_pos hv1]
      simp [expectColon_digitChar (show h % 10 ≤ 9 by omega)]
    · simp only [parse12h, parseHMS]
      rw [pad2_eq (show h < 100 by omega)]
      simp only [List.cons_append, List.nil_append]
      rw [matchField_digits validI2 validI1 (by omega) (by omega) _, if_neg hv, if_neg hv1]

/-! ## Claim C4 -/

/-- C4: for every `s` in `[0, 86399]`,
`time_to_seconds (seconds_to_time s) = s`: the rendered 24-hour text
re-parses (via the 24-hour format, after the 12-hour format fails) to
the same seconds-since-midnight value. -/
theorem time_codec_round_trip (s : ℕ) (hs : s < 86400) :
    time_to_seconds (seconds_to_time s) = some s := by
  have hH : s / 3600 % 24 = s / 3600 := by omega
  have hdata : (seconds_to_time s).data =
      pad2 (s / 3600) ++ ':' :: (pad2 (s % 3600 / 60) ++ ':' :: pad2 (s % 60)) := by
    simp [seconds_to_time, hH]
  simp only [time_to_seconds, hdata]
  rw [parse12h_pad2_none (by omega) (by omega) (by omega)]
  rw [parse24h_pad2 (by omega) (by omega) (by omega)]
  simp
  omega

/-- C4 witness: the round trip at `s = 70200` (19:30:00). -/
theorem time_codec_round_trip_witness :
    70200 < 86400 ∧ time_to_seconds (seconds_to_time 70200) = some 70200 :=
  ⟨by decide, time_codec_round_trip 70200 (by decide)⟩

/-! ## Lemmas bounding the values produced by the parsers -/

/-- A digit character's value is at most 9. -/
theorem digitVal_le {c : Char} (h : isDigitCh c = true) : digitVal c ≤ 9 := by
  simp only [isDigitCh, Bool.and_eq_true, decide_eq_true_eq] at h
  simp only [digitVal]
  omega

/-- Inversion for `matchField`: a successful match came from the
two-digit alternative or the one-digit alternative. -/
theorem matchField_cases (v2 : ℕ → ℕ → Bool) (v1 : ℕ → Bool) {l : List Char} {x : ℕ}
    {r : List Char} (h : matchField v2 v1 l = some (x, r)) :
    (∃ d1 d2, d1 ≤ 9 ∧ d2 ≤ 9 ∧ v2 d1 d2 = true ∧ x = 10 * d1 + d2) ∨
    (∃ d, d ≤ 9 ∧ v1 d = true ∧ x = d) := by
  rcases l with _ | ⟨c1, _ | ⟨c2, rest⟩⟩
  · simp [matchField] at h
  · simp only [matchField] at h
    split_ifs at h with h1
    rw [Bool.and_eq_true] at h1
    simp only [Option.some.injEq, Prod.mk.injEq] at h
    exact Or.inr ⟨digitVal c1, digitVal_le h1.1, h1.2, h.1.symm⟩
  · simp only [matchField] at h
    split_ifs at h with h1 h2 h3
    · rw [Bool.and_eq_true] at h2
      simp only [Option.some.injEq, Prod.mk.injEq] at h
      exact Or.inl ⟨digitVal c1, digitVal c2, digitVal_le h1, digitVal_le h2.1, h2.2, h.1.symm⟩
    · simp only [Option.some.injEq, Prod.mk.injEq] at h
      exact Or.inr ⟨digitVal c1, digitVal_le h1, h3, h.1.symm⟩

/-- The `%H` field yields an hour at most 23. -/
theorem matchField_H_le {l : List Char} {x : ℕ} {r : List Char}
    (h : matchField validH2 validH1 l = some (x, r)) : x ≤ 23 := by
  rcases matchField_cases validH2 validH1 h with ⟨d1, d2, _, h2, hv, rfl⟩ | ⟨d, hd, _, rfl⟩
  · simp [validH2] at hv
    omega
  · omega

/-- The `%I` field yields an hour in `[1, 12]`. -/
theorem matchField_I_bounds {l : List Char} {x : ℕ} {r : List Char}
    (h : matchField validI2 validI1 l = some (x, r)) : 1 ≤ x ∧ x ≤ 12 := by
  rcases matchField_cases validI2 validI1 h with ⟨d1, d2, _, h2, hv, rfl⟩ | ⟨d, hd, hv, rfl⟩
  · simp [validI2] at hv
    omega
  · simp [validI1] at hv
    omega

/-- The `%M` field yields a minute at most 59. -/
theorem matchField_M_le {l : List Char} {x : ℕ} {r : List Char}
    (h : matchField validM2 validM1 l = some (x, r)) : x ≤ 59 := by
  rcases matchField_cases validM2 validM1 h with ⟨d1, d2, _, h2, hv, rfl⟩ | ⟨d, hd, _, rfl⟩
  · simp [validM2] at hv
    omega
  · omega

/-- Inversion for `parseHMS`: the hour field was matched by the first
directive and the minute is at most 59. -/
theorem parseHMS_bounds (v2 : ℕ → ℕ → Bool) (v1 : ℕ → Bool) {l : List Char}
    {h m s : ℕ} {r : List Char} (hp : parseHMS v2 v1 l = some (h, m, s, r)) :
    (∃ r1, matchField v2 v1 l = some (h, r1)) ∧ m ≤ 59 := by
  unfold parseHMS at hp
  split at hp
  · exact Option.noConfusion hp
  next h1 r1 heq1 =>
    split at hp
    · exact Option.noConfusion hp
    next r2 heq2 =>
      split at hp
      · exact Option.noConfusion hp
      next m1 r3 heq3 =>
        split at hp
        · exact Option.noConfusion hp
        next r4 heq4 =>
          split at hp
          · exact Option.noConfusion hp
          next s1 r5 heq5 =>
            simp only [Option.some.injEq, Prod.mk.injEq] at hp
            obtain ⟨rfl, rfl, rfl, rfl⟩ := hp
            exact ⟨⟨r1, heq1⟩, matchField_M_le heq3⟩

/-- A successful 12-hour parse is a valid time of day. -/
theorem parse12h_le {l : List Char} {v : ℕ} (h : parse12h l = some v) : v ≤ 86399 := by
  unfold parse12h at h
  split at h
  · exact Option.noConfusion h
  next h1 m1 s1 r heq =>
    split at h
    · exact Option.noConfusion h
    next pm heqm =>
      dsimp only at h
      obtain ⟨⟨r1, hmf⟩, hm⟩ := parseHMS_bounds validI2 validI1 heq
      have hI := matchField_I_bounds hmf
      by_cases hs : s1 ≤ 59
      · rw [if_pos hs, Option.some.injEq] at h
        subst h
        have hhour : ∀ x : ℕ, x ≤ 23 → x * 3600 + m1 * 60 + s1 ≤ 86399 := by
          intro x hx
          omega
        apply hhour
        cases pm <;> by_cases h12 : h1 = 12 <;> simp [h12] <;> omega
      · rw [if_neg hs] at h
        exact Option.noConfusion h

/-- A successful 24-hour parse is a valid time of day. -/
theorem parse24h_le {l : List Char} {v : ℕ} (h : parse24h l = some v) : v ≤ 86399 := by
  unfold parse24h at h
  split at h
  · exact Option.noConfusion h
  next h1 m1 s1 r heq =>
    split at h
    · next hcond =>
      simp only [Bool.and_eq_true, List.isEmpty_eq_true, decide_eq_true_eq] at hcond
      simp only [Option.some.injEq] at h
      subst h
      obtain ⟨⟨r1, hmf⟩, hm⟩ := parseHMS_bounds validH2 validH1 heq
      have hH := matchField_H_le hmf
      omega
    · exact Option.noConfusion h

/-- A successful ISO time-of-day parse is range checked. -/
theorem parseIsoTime_le {l : List Char} {h m s : ℕ}
    (hp : parseIsoTime l = some (h, m, s)) : h ≤ 23 ∧ m ≤ 59 ∧ s ≤ 59 := by
  unfold parseIsoTime at hp
  split at hp
  · exact Option.noConfusion hp
  next h1 m1 s1 heq =>
    split at hp
    · split at hp
      · next hcond =>
        simp only [Bool.and_eq_true, decide_eq_true_eq] at hcond
        simp only [Option.some.injEq, Prod.mk.injEq] at hp
        obtain ⟨rfl, rfl, rfl⟩ := hp
        obtain ⟨⟨ha, hb⟩, hc⟩ := hcond
        exact ⟨ha, hb, hc⟩
      · exact Option.noConfusion hp
    · split at hp
      · exact Option.noConfusion hp
      · split at hp
        · next hcond =>
          simp only [Bool.and_eq_true, decide_eq_true_eq] at hcond
          simp only [Option.some.injEq, Prod.mk.injEq] at hp
          obtain ⟨rfl, rfl, rfl⟩ := hp
          obtain ⟨⟨ha, hb⟩, hc⟩ := hcond
          exact ⟨ha, hb, hc⟩
        · exact Option.noConfusion hp

/-- A successful ISO parse is a valid time of day. -/
theorem parseISO_le {l : List Char} {v : ℕ} (h : parseISO l = some v) : v ≤ 86399 := by
  unfold parseISO at h
  split at h
  · exact Option.noConfusion h
  next y r1 heq1 =>
    split at h
    · exact Option.noConfusion h
    next r2 heq2 =>
      split at h
      · exact Option.noConfusion h
      next mo r3 heq3 =>
        split at h
        · exact Option.noConfusion h
        next r4 heq4 =>
          split at h
          · exact Option.noConfusion h
          next d r5 heq5 =>
            split at h
            · split at h
              · simp only [Option.some.injEq] at h
                omega
              · split at h
                · exact Option.noConfusion h
                next h1 m1 s1 heq6 =>
                  simp only [Option.some.injEq] at h
                  subst h
                  have hb := parseIsoTime_le heq6
                  omega
            · exact Option.noConfusion h

/-! ## Claim C10 -/

/-- C10: whenever `time_to_seconds` returns a value rather than
raising — through any of its three accepted formats — that value is in
`[0, 86399]`, a valid seconds-since-midnight time of day (the domain
`ℕ` gives the lower bound). -/
theorem time_to_seconds_range (str : String) (v : ℕ)
    (h : time_to_seconds str = some v) : v ≤ 86399 := by
  unfold time_to_seconds at h
  dsimp only at h
  split at h
  · next heq =>
    simp only [Option.some.injEq] at h
    subst h
    exact parse12h_le heq
  · split at h
    · next heq =>
      simp only [Option.some.injEq] at h
      subst h
      exact parse24h_le heq
    · exact parseISO_le h

/-- C10 witness: `"7:30:00 PM"` parses to `70200 ≤ 86399`. -/
theorem time_to_seconds_range_witness :
    time_to_seconds "7:30:00 PM" = some 70200 ∧ 70200 ≤ 86399 :=
  ⟨by decide, time_to_seconds_range "7:30:00 PM" 70200 (by decide)⟩

/-! ## Claims C5 and C8 -/

/-- The StatsEngine scenario input of the specification. -/
def c5_input : List FetchResult :=
  [⟨"A", "7:00:00 PM", -4⟩, ⟨"B", "7:30:00 PM", -4⟩, ⟨"C", "8:00:00 PM", -5⟩]

/-- Projection on the full-summary outcome. -/
def statsOf : Option StatsOutcome → Option StatsSummary
  | some (.stats s) => some s
  | _ => none

/-- C5 counterexample: on the scenario input the sunset seconds are
68400, 70200 and 72000, whose mean is 70200 — reported as
`"19:30:00"` — not 69600 (`"19:20:00"`) as the claim states; the
median is likewise 70200 (`"19:30:00"`). -/
theorem stats_scenario_mean_not_69600 :
    intMean [68400, 70200, 72000] = 70200 ∧
    (statsOf (calculate_statistics c5_input)).map (fun s => s.average_sunset) =
      some "19:30:00" ∧
    (statsOf (calculate_statistics c5_input)).map (fun s => s.median_sunset) =
      some "19:30:00" ∧
    ("19:30:00" : String) ≠ "19:20:00" := by decide

/-- C5 (amended): on the scenario input, `calculate_statistics` reports
mean sunset `"19:30:00"` (70200 s) and median `"19:30:00"`, earliest
result A at 19:00:00 (68400 s), latest result C at 20:00:00 (72000 s),
a time range of 3600 s (60 minutes), offset group `-4` with count 2,
and offset group `-5` with count 1 and standard deviation `"N/A"`. -/
theorem stats_scenario_values :
    (statsOf (calculate_statistics c5_input)).map (fun s => s.average_sunset) =
      some "19:30:00" ∧
    (statsOf (calculate_statistics c5_input)).map (fun s => s.median_sunset) =
      some "19:30:00" ∧
    (statsOf (calculate_statistics c5_input)).map (fun s => s.earliest_zip) = some "A" ∧
    (statsOf (calculate_statistics c5_input)).bind
      (fun s => time_to_seconds s.earliest_time) = some 68400 ∧
    seconds_to_time 68400 = "19:00:00" ∧
    (statsOf (calculate_statistics c5_input)).map (fun s => s.latest_zip) = some "C" ∧
    (statsOf (calculate_statistics c5_input)).bind
      (fun s => time_to_seconds s.latest_time) = some 72000 ∧
    seconds_to_time 72000 = "20:00:00" ∧
    (statsOf (calculate_statistics c5_input)).map (fun s => s.time_range_seconds) =
      some 3600 ∧
    ((statsOf (calculate_statistics c5_input)).bind
      (fun s => s.timezone_analysis (-4))).map (fun g => g.count) = some 2 ∧
    ((statsOf (calculate_statistics c5_input)).bind
      (fun s => s.timezone_analysis (-5))).map
      (fun g => (g.count, g.std_dev_minutes.isNone)) = some (1, true) := by decide

/-- C8 counterexample: on a non-empty input with exactly one
FetchResult, `calculate_statistics` raises (`statistics.stdev` on line
229 needs at least two samples) instead of returning a summary. -/
theorem calculate_statistics_singleton_raises :
    (calculate_statistics [⟨"A", "7:00:00 PM", -4⟩]).isNone = true := by decide

/-- All sunset texts parse, so the comprehension of line 224 returns a
value per result. -/
theorem parseAllTimes_isSome {l : List FetchResult}
    (h : ∀ r ∈ l, (time_to_seconds r.sunset_time).isSome = true) :
    ∃ vs, parseAllTimes l = some vs ∧ vs.length = l.length := by
  induction l with
  | nil => exact ⟨[], rfl, rfl⟩
  | cons r rs ih =>
    obtain ⟨v, hv⟩ := Option.isSome_iff_exists.mp (h r (by simp))
    obtain ⟨vs, hvs, hlenvs⟩ := ih (fun x hx => h x (by simp [hx]))
    exact ⟨v :: vs, by simp [parseAllTimes, hv, hvs], by simp [hlenvs]⟩

/-- C8 (amended): for every sequence of at least two FetchResults whose
sunset texts all parse, `calculate_statistics` returns a summary, and
any offset group with exactly one sample reports standard deviation
`"N/A"`; an input with exactly one FetchResult instead raises (see the
counterexample). -/
theorem calculate_statistics_two_or_more (results : List FetchResult)
    (hlen : 2 ≤ results.length)
    (hparse : ∀ r ∈ results, (time_to_seconds r.sunset_time).isSome = true) :
    ∃ s, calculate_statistics results = some (.stats s) ∧
      ∀ off : ℚ, (results.filter (fun r => decide (r.timezone_offset = off))).length = 1 →
        ∃ g, s.timezone_analysis off = some g ∧ g.std_dev_minutes = none := by
  obtain ⟨vs, hvs, hvslen⟩ := parseAllTimes_isSome hparse
  have hne : results.isEmpty = false := by
    cases results with
    | nil => simp at hlen
    | cons a t => rfl
  simp only [calculate_statistics, hne, Bool.false_eq_true, if_false, hvs]
  rw [if_neg (by omega : ¬ vs.length < 2)]
  refine ⟨_, rfl, ?_⟩
  intro off hoff
  dsimp only
  cases hf : results.filter (fun r => decide (r.timezone_offset = off)) with
  | nil =>
    rw [hf] at hoff
    simp at hoff
  | cons a t =>
    have hlen1 : (a :: t).length = 1 := by rw [← hf, hoff]
    simp only [List.isEmpty_cons, Bool.false_eq_true, if_false]
    refine ⟨_, rfl, ?_⟩
    dsimp only
    rw [if_neg (by omega : ¬ 1 < (a :: t).length)]

/-- C8 witness: the scenario input has three parsing results and its
offset group `-5` has exactly one sample. -/
theorem calculate_statistics_two_or_more_witness :
    2 ≤ c5_input.length ∧
    (∀ r ∈ c5_input, (time_to_seconds r.sunset_time).isSome = true) ∧
    (∃ s, calculate_statistics c5_input = some (.stats s) ∧
      ∀ off : ℚ, (c5_input.filter (fun r => decide (r.timezone_offset = off))).length = 1 →
        ∃ g, s.timezone_analysis off = some g ∧ g.std_dev_minutes = none) :=
  ⟨by decide, by decide,
   calculate_statistics_two_or_more c5_input (by decide) (by decide)⟩
